import Mathlib

/-!
Shallow embedding of the "nameh" document-assistant application
(src/types.ts, src/geminiservice.ts, src/App.tsx).

The application is a sequential workflow: user inputs are collected, a
remote generation endpoint is called, its JSON-ish response is parsed with
a fallback, the user picks one of the returned variations, revises it via
further calls, and results are recorded into a capped history list.

Modelling conventions:
- JavaScript strings become Lean `String`; `trim`/`substring` are modelled
  by explicit character-list operations (`jsTrim`, `jsTake`) so that all
  definitions reduce in the kernel.
- The remote endpoint and `JSON.parse` (browser built-ins, not repository
  code) are oracles supplied as environment parameters: the outcome of the
  network call is an `Except String (Option String)` (transport error, or
  a response whose `text` field may be absent), and `JSON.parse` is a
  function `String → Option ParsedJson`.
- Each service function additionally returns a `Bool` recording whether
  the network call was reached, so "no network call attempted" is a
  provable statement.
- React `useState` state becomes one `AppState` record; each event handler
  becomes a pure state transformer.  An async handler that awaits a call
  is modelled by its guard, its intermediate (loading) state, and its
  settled state, applied atomically in one step.
-/

deriving instance DecidableEq for Except

namespace Nevisandeh

/-- Models JavaScript `String.prototype.trim`: removes whitespace from both
ends of the string. Defined over the character list so it reduces in the
kernel. -/
def jsTrim (s : String) : String :=
  String.mk (((s.data.dropWhile Char.isWhitespace).reverse.dropWhile Char.isWhitespace).reverse)

/-- Models JavaScript `substring(0, n)`: the first `n` characters. -/
def jsTake (n : Nat) (s : String) : String :=
  String.mk (s.data.take n)

/-- src/types.ts: `enum DocumentType { LETTER, MINUTES }`. -/
inductive DocumentType where
  | LETTER
  | MINUTES
deriving DecidableEq, Repr

/-- src/types.ts: `interface DocumentInputs`. -/
structure DocumentInputs where
  recipientName : String
  recipientRole : String
  subject : String
  body : String
deriving DecidableEq, Repr

/-- src/types.ts: `interface GenerationState`. -/
structure GenerationState where
  isLoading : Bool
  error : Option String
  results : List String
  selectedIndex : Nat
  type : Option DocumentType
deriving DecidableEq, Repr

/-- src/types.ts: `interface HistoryItem`. -/
structure HistoryItem where
  id : String
  originalText : String
  generatedText : String
  type : DocumentType
  timestamp : Nat
deriving DecidableEq, Repr

/-- src/types.ts: `interface SavedData`. -/
structure SavedData where
  recipients : List String
  subjects : List String
deriving DecidableEq, Repr

/-- Outcome of `JSON.parse` when it succeeds.  The response schema sent by
`generateDocument` constrains the model to produce a JSON array of strings,
so a successfully parsed value is either an array of strings or some other
JSON value; the code only inspects `Array.isArray(parsed) && parsed.length > 0`. -/
inductive ParsedJson where
  | strArray (elems : List String)
  | nonArray
deriving DecidableEq, Repr

/-- Environment of one `generateDocument` call: the module-level credential
`process.env.API_KEY`, the `JSON.parse` oracle, and the outcome of the
`ai.models.generateContent` network call (`.error msg` = the promise
rejected; `.ok none` = resolved but `response.text` absent; `.ok (some t)`
= resolved with text `t`). -/
structure GenEnv where
  apiKey : Option String
  parse : String → Option ParsedJson
  callResult : Except String (Option String)

/-- Environment of one `reviseDocument` call. -/
structure RevEnv where
  apiKey : Option String
  callResult : Except String (Option String)

/-- src/geminiservice.ts line 49 / 133: the guard `if (!apiKey)`.
JavaScript falsiness: `undefined` and the empty string both fail. -/
def keyPresent : Option String → Bool
  | none => false
  | some k => !k.isEmpty

/-- src/geminiservice.ts: `generateDocument` (lines 45-126).  Returns the
result together with a flag recording whether the network call
(`ai.models.generateContent`) was reached.  The early `throw` on a missing
credential happens before the `try`, so no call is made in that case.
Inside the `try`: if `response.text` is present, `JSON.parse` it; a parsed
non-empty array is returned as-is; a parse failure, a non-array value, or
an empty array falls back to `[response.text]`; an absent `response.text`
throws a "no response" error.  The `catch` rethrows `error.message` or a
generic localized message when the message is empty. -/
def generateDocument (env : GenEnv) : Except String (List String) × Bool :=
  if !(keyPresent env.apiKey) then
    (.error "تنظیمات API Key یافت نشد.", false)
  else
    match env.callResult with
    | .error msg =>
      (.error (if msg = "" then "خطایی در برقراری ارتباط با هوش مصنوعی رخ داد." else msg), true)
    | .ok none =>
      (.error "پاسخی از مدل دریافت نشد. لطفاً مجدد تلاش کنید.", true)
    | .ok (some text) =>
      match env.parse text with
      | some (.strArray elems) =>
        (if elems.length > 0 then .ok elems else .ok [text], true)
      | some .nonArray => (.ok [text], true)
      | none => (.ok [text], true)

/-- src/geminiservice.ts: `reviseDocument` (lines 128-179).  Same credential
guard; on a response with text, that text is returned; an absent text
throws "no response"; the `catch` rethrows `error.message` or a generic
message when empty. -/
def reviseDocument (env : RevEnv) : Except String String × Bool :=
  if !(keyPresent env.apiKey) then
    (.error "تنظیمات API Key یافت نشد.", false)
  else
    match env.callResult with
    | .error msg =>
      (.error (if msg = "" then "خطایی در ویرایش متن رخ داد." else msg), true)
    | .ok none =>
      (.error "پاسخی از مدل دریافت نشد.", true)
    | .ok (some text) => (.ok text, true)

/-- src/App.tsx: the complete `useState` state of the `App` component. -/
structure AppState where
  inputs : DocumentInputs
  savedData : SavedData
  state : GenerationState
  copied : Bool
  history : List HistoryItem
  feedbackText : String
  isRevising : Bool
  previousVersion : Option String
  showFeedbackInput : Bool
deriving DecidableEq, Repr

/-- src/App.tsx lines 11-40: the initial values of all `useState` hooks
(first run, with no persisted data in local storage). -/
def initialAppState : AppState where
  inputs := { recipientName := "", recipientRole := "", subject := "", body := "" }
  savedData := { recipients := [], subjects := [] }
  state := { isLoading := false, error := none, results := [], selectedIndex := 0, type := none }
  copied := false
  history := []
  feedbackText := ""
  isRevising := false
  previousVersion := none
  showFeedbackInput := false

/-- src/App.tsx line 215: `isFormValid = inputs.body.trim().length > 0 ||
inputs.subject.trim().length > 0`. -/
def isFormValid (inputs : DocumentInputs) : Bool :=
  (jsTrim inputs.body).length > 0 || (jsTrim inputs.subject).length > 0

/-- The two string-keyed saved-field lists, `recipients` and `subjects`. -/
inductive SavedField where
  | recipients
  | subjects
deriving DecidableEq, Repr

/-- Lookup `savedData[type]`. -/
def SavedData.get : SavedData → SavedField → List String
  | d, .recipients => d.recipients
  | d, .subjects => d.subjects

/-- Functional update of `savedData[type]`. -/
def SavedData.set : SavedData → SavedField → List String → SavedData
  | d, .recipients, l => { d with recipients := l }
  | d, .subjects, l => { d with subjects := l }

/-- src/App.tsx lines 79-85: `saveItem`.  A no-op when the value is blank
after trimming or the trimmed value is already in the list; otherwise
appends the trimmed value at the end. -/
def saveItem (field : SavedField) (value : String) (s : AppState) : AppState :=
  if jsTrim value = "" ∨ jsTrim value ∈ s.savedData.get field then s
  else { s with savedData := s.savedData.set field (s.savedData.get field ++ [jsTrim value]) }

/-- src/App.tsx lines 87-92: `removeItem`, filtering out exact matches. -/
def removeItem (field : SavedField) (value : String) (s : AppState) : AppState :=
  { s with savedData :=
      s.savedData.set field ((s.savedData.get field).filter (fun item => item ≠ value)) }

/-- src/App.tsx lines 75-77: `handleInputChange`. -/
def handleInputChange (s : AppState) (f : DocumentInputs → DocumentInputs) : AppState :=
  { s with inputs := f s.inputs }

/-- src/App.tsx lines 64-73: `addToHistory`.  Prepends the new item and
keeps only the first 10 (`[newItem, ...prev].slice(0, 10)`).  `now` models
`Date.now()`. -/
def addToHistory (now : Nat) (original generated : String) (ty : DocumentType)
    (s : AppState) : AppState :=
  { s with history :=
      (({ id := toString now, originalText := original, generatedText := generated,
          type := ty, timestamp := now } : HistoryItem) :: s.history).take 10 }

/-- src/App.tsx lines 95-102 of `handleGenerate`: the state just after the
guard passes — revision state reset, then
`setState({ isLoading: true, error: null, results: [], selectedIndex: 0, type })`. -/
def handleGenerateLoading (ty : DocumentType) (s : AppState) : AppState :=
  { s with
      previousVersion := none
      showFeedbackInput := false
      feedbackText := ""
      state := { isLoading := true, error := none, results := [], selectedIndex := 0,
                 type := some ty } }

/-- src/App.tsx lines 94-119: `handleGenerate`, run to completion (the
`await generateDocument` is resolved against the environment `env`).
Returns the settled state and whether a network call was issued.
Guard: `if (!inputs.body.trim() && !inputs.subject.trim()) return`.
On success the state is replaced wholesale and a history item is added
with summary `inputs.subject || inputs.body.substring(0, 50) + "..."` and
the first returned variation.  On failure the state is replaced with
`error: err.message` (or a generic localized message), empty results and null type. -/
def handleGenerate (ty : DocumentType) (env : GenEnv) (now : Nat) (s : AppState) :
    AppState × Bool :=
  if jsTrim s.inputs.body = "" ∧ jsTrim s.inputs.subject = "" then (s, false)
  else
    let s1 := handleGenerateLoading ty s
    match generateDocument env with
    | (.ok results, net) =>
      let summary :=
        if s.inputs.subject = "" then jsTake 50 s.inputs.body ++ "..." else s.inputs.subject
      (addToHistory now summary (results.headD "") ty
        { s1 with state := { isLoading := false, error := none, results := results,
                             selectedIndex := 0, type := some ty } }, net)
    | (.error msg, net) =>
      ({ s1 with state := { isLoading := false,
                            error := some (if msg = "" then "خطایی رخ داده است" else msg),
                            results := [], selectedIndex := 0, type := none } }, net)

/-- src/App.tsx lines 364-384: the two generate buttons carry
`disabled={state.isLoading || isRevising || !isFormValid}`; a disabled
button never fires its `onClick`, so this is the only path the program has into
`handleGenerate`. -/
def clickGenerate (ty : DocumentType) (env : GenEnv) (now : Nat) (s : AppState) :
    AppState × Bool :=
  if s.state.isLoading || s.isRevising || !(isFormValid s.inputs) then (s, false)
  else handleGenerate ty env now s

/-- src/App.tsx lines 121-124: `getCurrentResult`. Out-of-range indexing
yields JavaScript `undefined`, which every caller treats like `null`;
both are modelled as `none`. -/
def getCurrentResult (s : AppState) : Option String :=
  if s.state.results.length = 0 then none
  else s.state.results.get? s.state.selectedIndex

/-- src/App.tsx lines 126-130: `updateCurrentResult`, replacing the entry
at `selectedIndex` (always called with `selectedIndex` in range). -/
def updateCurrentResult (newText : String) (s : AppState) : AppState :=
  { s with state := { s.state with
      results := s.state.results.set s.state.selectedIndex newText } }

/-- src/App.tsx lines 132-148: `handleRevise`, run to completion.  Guard:
`if (!current || !state.type || !feedbackText.trim()) return`.  Otherwise
snapshots the current result into `previousVersion`, awaits
`reviseDocument`; on success replaces the selected result and clears the
feedback text; on failure only sets `error`; the `finally` clears
`isRevising` on both paths. -/
def handleRevise (env : RevEnv) (s : AppState) : AppState × Bool :=
  match getCurrentResult s with
  | none => (s, false)
  | some current =>
    if s.state.type = none ∨ jsTrim s.feedbackText = "" then (s, false)
    else
      let s1 := { s with isRevising := true, previousVersion := some current }
      match reviseDocument env with
      | (.ok revised, net) =>
        ({ updateCurrentResult revised s1 with feedbackText := "", isRevising := false }, net)
      | (.error msg, net) =>
        ({ s1 with
            state := { s1.state with
              error := some (if msg = "" then "خطا در ویرایش متن" else msg) }
            isRevising := false }, net)

/-- src/App.tsx lines 150-154: `handleAcceptRevision`. -/
def handleAcceptRevision (s : AppState) : AppState :=
  { s with previousVersion := none, showFeedbackInput := false, feedbackText := "" }

/-- src/App.tsx lines 156-162: `handleDiscardRevision`: when a snapshot is
pending, restores it into the selected slot and clears it. -/
def handleDiscardRevision (s : AppState) : AppState :=
  match s.previousVersion with
  | none => s
  | some prev =>
    { updateCurrentResult prev s with previousVersion := none, feedbackText := "" }

/-- src/App.tsx lines 197-213: `loadFromHistory`.  Rehydrates only the body
input, replaces the generation state with the single stored variation, and
clears the pending-revision state. -/
def loadFromHistory (item : HistoryItem) (s : AppState) : AppState :=
  { s with
      inputs := { recipientName := "", recipientRole := "", subject := "",
                  body := item.originalText }
      state := { isLoading := false, error := none, results := [item.generatedText],
                 selectedIndex := 0, type := some item.type }
      previousVersion := none
      showFeedbackInput := false }

/-- src/App.tsx lines 421-436: the variation tabs.  A tab for index `idx`
is rendered only while `state.results.length > 1` and `idx` ranges over
the indices of `results`; clicking it sets `selectedIndex := idx`. -/
def selectVariation (idx : Nat) (s : AppState) : AppState :=
  if 1 < s.state.results.length ∧ idx < s.state.results.length then
    { s with state := { s.state with selectedIndex := idx } }
  else s

/-- The discrete user events of the application (src/App.tsx render tree).
Each carries the environment its handler needs: generation and revision
events carry the oracle outcomes of their awaited network calls, and the
`Date.now()` value where one is read. -/
inductive Action where
  | editInput (f : DocumentInputs → DocumentInputs)
  | saveField (field : SavedField) (value : String)
  | removeField (field : SavedField) (value : String)
  | generate (ty : DocumentType) (env : GenEnv) (now : Nat)
  | pickVariation (idx : Nat)
  | revise (env : RevEnv)
  | acceptRevision
  | discardRevision
  | historyClick (i : Nat)
  | clearHistory
  | copy
  | copyTimeout
  | openFeedback
  | closeFeedback
  | editFeedback (v : String)

/-- One user event applied to the state.  `historyClick i` models clicking
the `i`-th rendered history card (such a card exists only for an in-range
index); `clearHistory` is the trash button (`setHistory([])`); `copy` /
`copyTimeout` are the copied-flag set and its 2-second reset; `openFeedback`
/ `closeFeedback` and `editFeedback` drive the feedback textarea
(src/App.tsx lines 480, 523-526, 508). -/
def step (s : AppState) : Action → AppState
  | .editInput f => handleInputChange s f
  | .saveField field v => saveItem field v s
  | .removeField field v => removeItem field v s
  | .generate ty env now => (clickGenerate ty env now s).1
  | .pickVariation idx => selectVariation idx s
  | .revise env => (handleRevise env s).1
  | .acceptRevision => handleAcceptRevision s
  | .discardRevision => handleDiscardRevision s
  | .historyClick i =>
    match s.history.get? i with
    | some item => loadFromHistory item s
    | none => s
  | .clearHistory => { s with history := [] }
  | .copy => if (getCurrentResult s).isSome then { s with copied := true } else s
  | .copyTimeout => { s with copied := false }
  | .openFeedback => { s with showFeedbackInput := true }
  | .closeFeedback => { s with showFeedbackInput := false, feedbackText := "" }
  | .editFeedback v => { s with feedbackText := v }

/-- The state after a sequence of user events, starting from `s`. -/
def run (acts : List Action) (s : AppState) : AppState :=
  acts.foldl step s

/-! ### Helper lemmas about the service layer -/

/-- A successful `generateDocument` result is never the empty list: a parsed
array is returned only when its length is positive, and every fallback is
the one-element list `[response.text]`. -/
theorem generateDocument_ok_ne_nil (env : GenEnv) (l : List String)
    (h : (generateDocument env).1 = .ok l) : l ≠ [] := by
  intro hnil
  subst hnil
  unfold generateDocument at h
  split at h
  · simp_all
  · split at h
    · simp_all
    · simp_all
    · split at h
      · split at h <;> simp_all
      · simp_all
      · simp_all

/-- Every error message produced by `reviseDocument` is non-empty: the two
thrown messages are literals, and an empty provider message is replaced by
the generic localized fallback. -/
theorem reviseDocument_error_ne_empty (env : RevEnv) (msg : String)
    (h : (reviseDocument env).1 = .error msg) : msg ≠ "" := by
  intro hempty
  subst hempty
  unfold reviseDocument at h
  split at h
  · simp only [Except.error.injEq] at h
    exact absurd h (by decide)
  · split at h
    · rename_i m heq
      have hlit : (if m = "" then "خطایی در ویرایش متن رخ داد." else m) = "" := by
        simpa using h
      split at hlit
      · exact absurd hlit (by decide)
      · simp_all
    · simp only [Except.error.injEq] at h
      exact absurd h (by decide)
    · simp_all

/-- Helper: `List.set` at an index holding the written value is the
identity. -/
theorem list_set_of_get?_eq {α : Type} {l : List α} {i : Nat} {a : α}
    (h : l.get? i = some a) : l.set i a = l := by
  induction l generalizing i with
  | nil => simp
  | cons x xs ih =>
    cases i with
    | zero => simp_all
    | succ n =>
      simp only [List.get?_cons_succ] at h
      simp [List.set, ih h]

/-! ### Reachable-state invariants -/

/-- The conjunction of the state invariants maintained by every handler:
`selectedIndex` is in range whenever `results` is non-empty (and is the
conventional 0 when it is empty), a non-empty `results` always comes with
a non-null `type`, and the history never exceeds 10 items. -/
def StateInv (s : AppState) : Prop :=
  (s.state.results ≠ [] → s.state.selectedIndex < s.state.results.length)
  ∧ (s.state.results = [] → s.state.selectedIndex = 0)
  ∧ (s.state.results ≠ [] → s.state.type ≠ none)
  ∧ s.history.length ≤ 10

theorem stateInv_initial : StateInv initialAppState := by
  refine ⟨?_, ?_, ?_, ?_⟩ <;> simp [initialAppState]

theorem stateInv_step (s : AppState) (a : Action) (h : StateInv s) :
    StateInv (step s a) := by
  obtain ⟨h1, h2, h3, h4⟩ := h
  cases a with
  | editInput f => exact ⟨h1, h2, h3, h4⟩
  | saveField field v =>
    simp only [step, saveItem]
    split <;> exact ⟨h1, h2, h3, h4⟩
  | removeField field v => exact ⟨h1, h2, h3, h4⟩
  | generate ty env now =>
    simp only [step, clickGenerate]
    split
    · exact ⟨h1, h2, h3, h4⟩
    · simp only [handleGenerate]
      split
      · exact ⟨h1, h2, h3, h4⟩
      · cases hg : generateDocument env with
        | mk res net =>
          cases res with
          | ok results =>
            have hne : results ≠ [] := by
              apply generateDocument_ok_ne_nil env
              rw [hg]
            refine ⟨?_, ?_, ?_, ?_⟩ <;> simp only [addToHistory, List.length_take]
            · intro _
              exact List.length_pos.mpr hne
            · intro hc
              exact absurd hc hne
            · intro _
              simp
            · exact min_le_left _ _
          | error msg =>
            refine ⟨?_, ?_, ?_, ?_⟩
            · intro hc; simp at hc
            · intro _; rfl
            · intro hc; simp at hc
            · exact h4
  | pickVariation idx =>
    simp only [step, selectVariation]
    split
    · rename_i hg
      refine ⟨?_, ?_, ?_, ?_⟩
      · intro _; exact hg.2
      · intro hc; rw [hc] at hg; simp at hg
      · exact h3
      · exact h4
    · exact ⟨h1, h2, h3, h4⟩
  | revise env =>
    simp only [step, handleRevise]
    split
    · exact ⟨h1, h2, h3, h4⟩
    · split
      · exact ⟨h1, h2, h3, h4⟩
      · cases hr : reviseDocument env with
        | mk res net =>
          cases res with
          | ok revised =>
            refine ⟨?_, ?_, ?_, ?_⟩ <;>
              simp only [updateCurrentResult, List.length_set, ne_eq, List.set_eq_nil_iff]
            · exact h1
            · exact h2
            · exact h3
            · exact h4
          | error msg => exact ⟨h1, h2, h3, h4⟩
  | acceptRevision => exact ⟨h1, h2, h3, h4⟩
  | discardRevision =>
    simp only [step, handleDiscardRevision]
    split
    · exact ⟨h1, h2, h3, h4⟩
    · refine ⟨?_, ?_, ?_, ?_⟩ <;>
        simp only [updateCurrentResult, List.length_set, ne_eq, List.set_eq_nil_iff]
      · exact h1
      · exact h2
      · exact h3
      · exact h4
  | historyClick i =>
    simp only [step]
    split
    · refine ⟨?_, ?_, ?_, ?_⟩
      · intro _; simp [loadFromHistory]
      · intro hc; exact absurd hc (by simp [loadFromHistory])
      · intro _; simp [loadFromHistory]
      · exact h4
    · exact ⟨h1, h2, h3, h4⟩
  | clearHistory => exact ⟨h1, h2, h3, Nat.zero_le 10⟩
  | copy =>
    simp only [step]
    split <;> exact ⟨h1, h2, h3, h4⟩
  | copyTimeout => exact ⟨h1, h2, h3, h4⟩
  | openFeedback => exact ⟨h1, h2, h3, h4⟩
  | closeFeedback => exact ⟨h1, h2, h3, h4⟩
  | editFeedback v => exact ⟨h1, h2, h3, h4⟩

theorem stateInv_run (acts : List Action) (s : AppState) (h : StateInv s) :
    StateInv (run acts s) := by
  induction acts generalizing s with
  | nil => exact h
  | cons a rest ih =>
    simp only [run, List.foldl]
    exact ih (step s a) (stateInv_step s a h)

/-! ### Generation outcomes -/

/-- The Ready outcome of a generation for the requested document type:
not loading, no error, a non-empty result sequence, the first variation
selected, and the requested type recorded. -/
def ReadyOutcome (ty : DocumentType) (g : GenerationState) : Prop :=
  g.isLoading = false ∧ g.error = none ∧ g.results ≠ [] ∧ g.selectedIndex = 0
    ∧ g.type = some ty

/-- The Failed outcome of a generation: not loading, a non-null error
message, no results, and the type cleared. -/
def FailedOutcome (g : GenerationState) : Prop :=
  g.isLoading = false ∧ g.error ≠ none ∧ g.results = [] ∧ g.type = none

instance (ty : DocumentType) (g : GenerationState) : Decidable (ReadyOutcome ty g) := by
  unfold ReadyOutcome; infer_instance

instance (g : GenerationState) : Decidable (FailedOutcome g) := by
  unfold FailedOutcome; infer_instance

/-- Helper: a string is non-empty exactly when its length is positive. -/
theorem string_ne_empty_iff_length_pos (s : String) : s ≠ "" ↔ 0 < s.length := by
  rw [Ne, String.ext_iff]
  cases s with
  | mk data => simp [String.length, List.length_pos]

/-- Helper: `isFormValid` holds exactly when the guard inside
`handleGenerate` lets the call proceed. -/
theorem isFormValid_iff_guard (inputs : DocumentInputs) :
    isFormValid inputs = true
      ↔ ¬(jsTrim inputs.body = "" ∧ jsTrim inputs.subject = "") := by
  unfold isFormValid
  rw [Bool.or_eq_true, decide_eq_true_iff, decide_eq_true_iff]
  simp only [gt_iff_lt, ← string_ne_empty_iff_length_pos]
  tauto

/-! ### Concrete fixtures used by counterexamples and witnesses -/

/-- A state whose body consists of a single space: non-empty, but blank
after trimming. -/
def spaceBodyState : AppState :=
  { initialAppState with
      inputs := { recipientName := "", recipientRole := "", subject := "", body := " " } }

/-- A state with a plain non-blank body. -/
def demoInputState : AppState :=
  { initialAppState with
      inputs := { recipientName := "", recipientRole := "", subject := "", body := "fix lamp" } }

/-- A generation environment: credential present, the call resolves with
text that parses to a two-element JSON array. -/
def demoOkEnv : GenEnv where
  apiKey := some "k"
  parse := fun _ => some (.strArray ["v1", "v2"])
  callResult := .ok (some "[\"v1\",\"v2\"]")

/-- A generation environment whose network call rejects. -/
def demoErrEnv : GenEnv where
  apiKey := some "k"
  parse := fun _ => none
  callResult := .error "boom"

/-- A generation environment with no credential configured. -/
def noKeyGenEnv : GenEnv where
  apiKey := none
  parse := fun _ => none
  callResult := .ok (some "unused")

/-! ### Claim C1 -/

/-- Claim C1 as stated is false: the guard in `handleGenerate` tests the
inputs after trimming, so a call with the non-empty, whitespace-only body
`" "` (and empty subject) returns before touching the state — the state
never becomes the loading state and settles in neither the Ready nor the
Failed outcome. -/
theorem generate_nonempty_input_counterexample :
    spaceBodyState.inputs.body ≠ ""
    ∧ (handleGenerate .LETTER demoOkEnv 0 spaceBodyState).1 = spaceBodyState
    ∧ (handleGenerate .LETTER demoOkEnv 0 spaceBodyState).1.state.isLoading = false
    ∧ ¬ ReadyOutcome .LETTER (handleGenerate .LETTER demoOkEnv 0 spaceBodyState).1.state
    ∧ ¬ FailedOutcome (handleGenerate .LETTER demoOkEnv 0 spaceBodyState).1.state := by
  refine ⟨by decide, by decide, by decide, ?_, ?_⟩
  · intro hr
    exact absurd hr.2.2.1 (by decide)
  · intro hf
    exact absurd hf.2.1 (by decide)

/-- Claim C1 (amended: "non-empty" read as "non-blank after trimming", the
condition `isFormValid` actually tested by the code): every such call first
replaces the state by the loading state (isLoading, no error, no results)
and then settles in exactly one of the Ready and Failed outcomes. -/
theorem generate_loading_then_two_outcomes (ty : DocumentType) (env : GenEnv)
    (now : Nat) (s : AppState) (h : isFormValid s.inputs = true) :
    ((handleGenerateLoading ty s).state.isLoading = true
      ∧ (handleGenerateLoading ty s).state.error = none
      ∧ (handleGenerateLoading ty s).state.results = [])
    ∧ ((ReadyOutcome ty (handleGenerate ty env now s).1.state
          ∧ ¬ FailedOutcome (handleGenerate ty env now s).1.state)
        ∨ (FailedOutcome (handleGenerate ty env now s).1.state
          ∧ ¬ ReadyOutcome ty (handleGenerate ty env now s).1.state)) := by
  refine ⟨⟨rfl, rfl, rfl⟩, ?_⟩
  have hguard : ¬(jsTrim s.inputs.body = "" ∧ jsTrim s.inputs.subject = "") :=
    (isFormValid_iff_guard s.inputs).mp h
  unfold handleGenerate
  rw [if_neg hguard]
  cases hg : generateDocument env with
  | mk res net =>
    cases res with
    | ok results =>
      have hne : results ≠ [] := generateDocument_ok_ne_nil env results (by rw [hg])
      left
      constructor
      · exact ⟨rfl, rfl, hne, rfl, rfl⟩
      · intro hf
        exact hne hf.2.2.1
    | error msg =>
      right
      constructor
      · exact ⟨rfl, Option.some_ne_none _, rfl, rfl⟩
      · intro hr
        exact Option.some_ne_none _ hr.2.1

/-- Witness for the amended claim C1, at a concrete state and both a
succeeding and a failing environment. -/
theorem generate_loading_then_two_outcomes_witness :
    (isFormValid demoInputState.inputs = true
      ∧ ReadyOutcome .LETTER (handleGenerate .LETTER demoOkEnv 7 demoInputState).1.state
      ∧ FailedOutcome (handleGenerate .LETTER demoErrEnv 7 demoInputState).1.state) := by
  refine ⟨by decide, ?_, ?_⟩
  · rcases (generate_loading_then_two_outcomes .LETTER demoOkEnv 7 demoInputState
      (by decide)).2 with h | h
    · exact h.1
    · exact absurd (by decide : ¬ FailedOutcome
        (handleGenerate .LETTER demoOkEnv 7 demoInputState).1.state) (by simp [h.1])
  · rcases (generate_loading_then_two_outcomes .LETTER demoErrEnv 7 demoInputState
      (by decide)).2 with h | h
    · exact absurd (by decide : ¬ ReadyOutcome .LETTER
        (handleGenerate .LETTER demoErrEnv 7 demoInputState).1.state) (by simp [h.1])
    · exact h.1

/-! ### Claim C2 -/

/-- Claim C2: the generate transition is guarded by `isFormValid` and by not
already being loading or revising.  Generation is only ever invoked through
the two generate buttons, whose `disabled` attribute suppresses the click
while `state.isLoading || isRevising || !isFormValid`; in any of those
situations the invocation leaves the state unchanged and issues no network
call. -/
theorem generate_guard_no_op (ty : DocumentType) (env : GenEnv) (now : Nat)
    (s : AppState)
    (h : s.state.isLoading = true ∨ s.isRevising = true ∨ isFormValid s.inputs = false) :
    clickGenerate ty env now s = (s, false) := by
  unfold clickGenerate
  rw [if_pos]
  rcases h with h | h | h <;> simp [h]

/-- A loading state: a prior generation is in flight. -/
def loadingDemoState : AppState :=
  { demoInputState with
      state := { demoInputState.state with isLoading := true } }

/-- Witness for claim C2: while loading, a click on generate changes
nothing and makes no call. -/
theorem generate_guard_no_op_witness :
    loadingDemoState.state.isLoading = true
    ∧ clickGenerate .LETTER demoOkEnv 0 loadingDemoState = (loadingDemoState, false) :=
  ⟨by decide, generate_guard_no_op .LETTER demoOkEnv 0 loadingDemoState (Or.inl (by decide))⟩

/-! ### Claim C3 -/

/-- Claim C3: with a credential configured, `generateDocument` returns a
parsed non-empty array as-is; on a parse failure, a non-array value, or an
empty array it returns the single-element array holding the raw response
text; and it fails with the "no response" error when the response text is
absent. -/
theorem generateDocument_parse_fallback (env : GenEnv)
    (h : keyPresent env.apiKey = true) :
    (∀ text elems, env.callResult = .ok (some text) →
        env.parse text = some (.strArray elems) → elems ≠ [] →
        (generateDocument env).1 = .ok elems)
    ∧ (∀ text, env.callResult = .ok (some text) →
        (env.parse text = none ∨ env.parse text = some .nonArray
          ∨ env.parse text = some (.strArray [])) →
        (generateDocument env).1 = .ok [text])
    ∧ (env.callResult = .ok none →
        (generateDocument env).1 = .error "پاسخی از مدل دریافت نشد. لطفاً مجدد تلاش کنید.") := by
  refine ⟨?_, ?_, ?_⟩
  · intro text elems hcall hparse hne
    simp [generateDocument, h, hcall, hparse, List.length_pos.mpr hne]
  · intro text hcall hp
    rcases hp with hp | hp | hp <;> simp [generateDocument, h, hcall, hp]
  · intro hcall
    simp [generateDocument, h, hcall]

/-- An environment whose response is the literal non-JSON string from the
scenario in the spec. -/
def rawTextEnv : GenEnv where
  apiKey := some "k"
  parse := fun _ => none
  callResult := .ok (some "فقط یک متن")

/-- Witness for claim C3: a parsed two-element array is returned as-is, and
the raw-text scenario from the spec produces the single-element fallback. -/
theorem generateDocument_parse_fallback_witness :
    keyPresent demoOkEnv.apiKey = true
    ∧ (generateDocument demoOkEnv).1 = .ok ["v1", "v2"]
    ∧ (generateDocument rawTextEnv).1 = .ok ["فقط یک متن"] :=
  ⟨by decide,
   (generateDocument_parse_fallback demoOkEnv (by decide)).1 "[\"v1\",\"v2\"]" ["v1", "v2"]
     rfl rfl (by decide),
   (generateDocument_parse_fallback rawTextEnv (by decide)).2.1 "فقط یک متن" rfl (Or.inl rfl)⟩

/-! ### Claim C4 -/

/-- Claim C4: with the credential absent, both service functions fail
immediately with the localized "API Key not found" message and the network
call is never reached. -/
theorem missing_credential_fails_fast (genv : GenEnv) (renv : RevEnv)
    (hg : genv.apiKey = none) (hr : renv.apiKey = none) :
    generateDocument genv = (.error "تنظیمات API Key یافت نشد.", false)
    ∧ reviseDocument renv = (.error "تنظیمات API Key یافت نشد.", false) := by
  constructor
  · simp [generateDocument, hg, keyPresent]
  · simp [reviseDocument, hr, keyPresent]

/-- A revision environment with no credential configured. -/
def noKeyRevEnv : RevEnv where
  apiKey := none
  callResult := .ok (some "unused")

/-- Witness for claim C4, at concrete credential-less environments. -/
theorem missing_credential_fails_fast_witness :
    generateDocument noKeyGenEnv = (.error "تنظیمات API Key یافت نشد.", false)
    ∧ reviseDocument noKeyRevEnv = (.error "تنظیمات API Key یافت نشد.", false) :=
  missing_credential_fails_fast noKeyGenEnv noKeyRevEnv rfl rfl

/-! ### Claim C5 -/

/-- Claim C5: under every sequence of user events the history holds at most
10 items; `addToHistory` inserts the new item at the front; and when 10
items are present the new item evicts the last (oldest) one. -/
theorem history_capped_newest_first :
    (∀ acts, (run acts initialAppState).history.length ≤ 10)
    ∧ (∀ now original generated ty s,
        (addToHistory now original generated ty s).history.head? =
          some { id := toString now, originalText := original, generatedText := generated,
                 type := ty, timestamp := now })
    ∧ (∀ now original generated ty s, s.history.length = 10 →
        (addToHistory now original generated ty s).history =
          { id := toString now, originalText := original, generatedText := generated,
            type := ty, timestamp := now } :: s.history.dropLast) := by
  refine ⟨?_, ?_, ?_⟩
  · intro acts
    exact (stateInv_run acts initialAppState stateInv_initial).2.2.2
  · intro now o g ty s
    simp [addToHistory]
  · intro now o g ty s hlen
    simp only [addToHistory, List.take_succ_cons]
    rw [List.dropLast_eq_take, hlen]

/-- A state carrying a full history of 10 items. -/
def tenHistoryState : AppState :=
  { initialAppState with
      history := (List.range 10).map (fun i =>
        { id := toString i, originalText := "o", generatedText := "g",
          type := .LETTER, timestamp := i }) }

/-- A short demo session: type a body, generate a letter (two variations),
then pick the second variation. -/
def demoActs : List Action :=
  [.editInput (fun i => { i with body := "fix lamp" }),
   .generate .LETTER demoOkEnv 3,
   .pickVariation 1]

/-- Witness for claim C5: the cap after a concrete session, the head after
a concrete insert, and the eviction at a concrete full history. -/
theorem history_capped_newest_first_witness :
    (run demoActs initialAppState).history.length ≤ 10
    ∧ (addToHistory 5 "o2" "g2" .MINUTES initialAppState).history.head? =
        some { id := toString 5, originalText := "o2", generatedText := "g2",
               type := .MINUTES, timestamp := 5 }
    ∧ tenHistoryState.history.length = 10
    ∧ (addToHistory 5 "o2" "g2" .MINUTES tenHistoryState).history =
        { id := toString 5, originalText := "o2", generatedText := "g2",
          type := .MINUTES, timestamp := 5 } :: tenHistoryState.history.dropLast :=
  ⟨history_capped_newest_first.1 demoActs,
   history_capped_newest_first.2.1 5 "o2" "g2" .MINUTES initialAppState,
   by decide,
   history_capped_newest_first.2.2 5 "o2" "g2" .MINUTES tenHistoryState (by decide)⟩

/-! ### Claim C6 -/

/-- Claim C6: in every reachable state, when `results` is non-empty the
selected index is in range (so `results[selectedIndex]` is defined), and
when `results` is empty the selected index is the conventional 0. -/
theorem selectedIndex_always_valid (acts : List Action) :
    ((run acts initialAppState).state.results ≠ [] →
      (run acts initialAppState).state.selectedIndex
        < (run acts initialAppState).state.results.length
      ∧ ((run acts initialAppState).state.results.get?
          (run acts initialAppState).state.selectedIndex).isSome = true)
    ∧ ((run acts initialAppState).state.results = [] →
      (run acts initialAppState).state.selectedIndex = 0) := by
  have h := stateInv_run acts initialAppState stateInv_initial
  refine ⟨fun hne => ⟨h.1 hne, ?_⟩, h.2.1⟩
  simp [List.get?_eq_getElem?, List.getElem?_eq_getElem (h.1 hne)]

/-- Witness for claim C6: after the demo session, the results are non-empty
and the selected index (set to 1 via a variation tab) is valid. -/
theorem selectedIndex_always_valid_witness :
    (run demoActs initialAppState).state.results ≠ []
    ∧ (run demoActs initialAppState).state.selectedIndex
        < (run demoActs initialAppState).state.results.length :=
  ⟨by decide, ((selectedIndex_always_valid demoActs).1 (by decide)).1⟩

/-! ### Claim C7 -/

/-- Helper: reading back the saved-field list just written. -/
theorem savedData_get_set_self (d : SavedData) (f : SavedField) (l : List String) :
    (d.set f l).get f = l := by
  cases f <;> rfl

/-- Claim C7: `saveItem` trims and deduplicates — it is a no-op when the
value is blank after trimming or the trimmed value is already stored, and
otherwise appends the trimmed value; in particular saving `"  X  "` and
then `"X"` starting from an empty list leaves exactly one entry `"X"`. -/
theorem saveItem_trim_dedupe :
    (∀ field v s, (jsTrim v = "" ∨ jsTrim v ∈ s.savedData.get field) →
        saveItem field v s = s)
    ∧ (∀ field v s, jsTrim v ≠ "" → jsTrim v ∉ s.savedData.get field →
        (saveItem field v s).savedData.get field = s.savedData.get field ++ [jsTrim v])
    ∧ (saveItem .recipients "X"
        (saveItem .recipients "  X  " initialAppState)).savedData.get .recipients
        = ["X"] := by
  refine ⟨?_, ?_, by decide⟩
  · intro f v s h
    unfold saveItem
    rw [if_pos h]
  · intro f v s h1 h2
    unfold saveItem
    rw [if_neg (by tauto)]
    exact savedData_get_set_self _ _ _

/-- Witness for claim C7: a blank value is ignored, and a fresh trimmed
value is appended. -/
theorem saveItem_trim_dedupe_witness :
    saveItem .recipients " " initialAppState = initialAppState
    ∧ (saveItem .subjects " Y " initialAppState).savedData.get .subjects
        = [] ++ ["Y"] :=
  ⟨saveItem_trim_dedupe.1 .recipients " " initialAppState (Or.inl (by decide)),
   saveItem_trim_dedupe.2.1 .subjects " Y " initialAppState (by decide) (by decide)⟩

/-! ### Claim C10 -/

/-- Claim C10 (implicit invariant): in every reachable state, a non-empty
`results` comes with a non-null `type`, so operations that branch on the
type while a result is displayed (such as choosing the export filename)
never observe non-empty results with a null type. -/
theorem results_nonempty_implies_type (acts : List Action)
    (h : (run acts initialAppState).state.results ≠ []) :
    (run acts initialAppState).state.type ≠ none :=
  (stateInv_run acts initialAppState stateInv_initial).2.2.1 h

/-- Witness for claim C10: after the demo session results are displayed
and the type is the requested LETTER. -/
theorem results_nonempty_implies_type_witness :
    (run demoActs initialAppState).state.results ≠ []
    ∧ (run demoActs initialAppState).state.type ≠ none :=
  ⟨by decide, results_nonempty_implies_type demoActs (by decide)⟩

/-! ### Claims C8 and C9 -/

/-- Helper: `getCurrentResult` exposes the in-range lookup. -/
theorem getCurrentResult_eq_some (s : AppState) (orig : String)
    (h : getCurrentResult s = some orig) :
    s.state.results.get? s.state.selectedIndex = some orig := by
  unfold getCurrentResult at h
  split at h
  · exact absurd h (by simp)
  · exact h

/-- Claim C8: applying a successful revision and then discarding it is the
identity on the results — the selected result is byte-for-byte the
pre-revision text, the whole results list is restored, and the snapshot is
cleared. -/
theorem revision_discard_roundtrip (s : AppState) (env : RevEnv) (orig revised : String)
    (hcur : getCurrentResult s = some orig)
    (hty : s.state.type ≠ none)
    (hfb : jsTrim s.feedbackText ≠ "")
    (hok : (reviseDocument env).1 = .ok revised) :
    (handleDiscardRevision (handleRevise env s).1).state.results = s.state.results
    ∧ getCurrentResult (handleDiscardRevision (handleRevise env s).1) = some orig
    ∧ (handleDiscardRevision (handleRevise env s).1).previousVersion = none := by
  have hget := getCurrentResult_eq_some s orig hcur
  have hguard : ¬(s.state.type = none ∨ jsTrim s.feedbackText = "") := by tauto
  simp only [handleRevise, hcur, if_neg hguard]
  cases hr : reviseDocument env with
  | mk res net =>
    rw [hr] at hok
    simp only at hok
    subst hok
    have hresults :
        ((s.state.results.set s.state.selectedIndex revised).set
          s.state.selectedIndex orig) = s.state.results := by
      rw [List.set_set]
      exact list_set_of_get?_eq hget
    simp only [handleDiscardRevision, updateCurrentResult]
    refine ⟨hresults, ?_, trivial⟩
    simp only [getCurrentResult, hresults]
    split
    · rename_i hzero
      rw [List.length_eq_zero] at hzero
      rw [hzero] at hget
      simp at hget
    · exact hget

/-- Claim C9: when the revision call fails, only the error field is set
(to the failure message) and `isRevising` is cleared; the snapshot and the
results — hence the selected pre-revision text and the feedback text —
are all left intact, so discard remains possible. -/
theorem revision_failure_preserves_state (s : AppState) (env : RevEnv) (orig msg : String)
    (hcur : getCurrentResult s = some orig)
    (hty : s.state.type ≠ none)
    (hfb : jsTrim s.feedbackText ≠ "")
    (herr : (reviseDocument env).1 = .error msg) :
    (handleRevise env s).1.state.error = some msg
    ∧ (handleRevise env s).1.isRevising = false
    ∧ (handleRevise env s).1.previousVersion = some orig
    ∧ (handleRevise env s).1.state.results = s.state.results
    ∧ getCurrentResult (handleRevise env s).1 = some orig
    ∧ (handleRevise env s).1.feedbackText = s.feedbackText := by
  have hmsg : msg ≠ "" := reviseDocument_error_ne_empty env msg herr
  have hguard : ¬(s.state.type = none ∨ jsTrim s.feedbackText = "") := by tauto
  simp only [handleRevise, hcur, if_neg hguard]
  cases hr : reviseDocument env with
  | mk res net =>
    rw [hr] at herr
    simp only at herr
    subst herr
    refine ⟨?_, rfl, rfl, rfl, ?_, rfl⟩
    · simp [if_neg hmsg]
    · exact hcur

/-- A state displaying two variations with the second selected and a
pending feedback text, ready for a revision. -/
def reviseReadyState : AppState :=
  { demoInputState with
      state := { isLoading := false, error := none, results := ["v1", "v2"],
                 selectedIndex := 1, type := some .LETTER },
      feedbackText := "shorter" }

/-- A revision environment whose call succeeds with a revised text. -/
def demoRevOkEnv : RevEnv where
  apiKey := some "k"
  callResult := .ok (some "revised text")

/-- A revision environment whose call rejects. -/
def demoRevErrEnv : RevEnv where
  apiKey := some "k"
  callResult := .error "boom"

/-- Witness for claim C8 at a concrete state and environment. -/
theorem revision_discard_roundtrip_witness :
    getCurrentResult reviseReadyState = some "v2"
    ∧ (handleDiscardRevision
        (handleRevise demoRevOkEnv reviseReadyState).1).state.results
        = reviseReadyState.state.results
    ∧ getCurrentResult
        (handleDiscardRevision (handleRevise demoRevOkEnv reviseReadyState).1)
        = some "v2" := by
  have h := revision_discard_roundtrip reviseReadyState demoRevOkEnv "v2" "revised text"
    (by decide) (by decide) (by decide) (by decide)
  exact ⟨by decide, h.1, h.2.1⟩

/-- Witness for claim C9 at a concrete state and environment. -/
theorem revision_failure_preserves_state_witness :
    (handleRevise demoRevErrEnv reviseReadyState).1.state.error = some "boom"
    ∧ (handleRevise demoRevErrEnv reviseReadyState).1.isRevising = false
    ∧ (handleRevise demoRevErrEnv reviseReadyState).1.previousVersion = some "v2"
    ∧ getCurrentResult (handleRevise demoRevErrEnv reviseReadyState).1 = some "v2" := by
  have h := revision_failure_preserves_state reviseReadyState demoRevErrEnv "v2" "boom"
    (by decide) (by decide) (by decide) (by decide)
  exact ⟨h.1, h.2.1, h.2.2.1, h.2.2.2.2.1⟩

end Nevisandeh
